import Mathlib

/-!
Verification development for the `mufetch` terminal music-info tool.

The definitions below are a shallow embedding of the program's Python
source (`src/display.py`, `src/spotify_client.py`, `src/commands/search.py`)
into Lean:

* pure string/number formatting helpers are translated directly;
* the CPython behaviours the code relies on (`datetime.strptime` with the
  `"%Y-%m-%d"` and `"%Y"` formats, `strftime("%b")`/`strftime("%Y")` under
  the C locale on glibc, `str.lower`, f-string zero padding) are modelled
  by explicit executable functions;
* network calls, the external `chafa` renderer, and downloaded images are
  modelled by explicit environment records carrying each call's outcome,
  and code that can raise is modelled with `Option`/`Except`.

Machine integers do not overflow in any of the modelled code paths
(Python integers are unbounded), so `Nat`/`Int` are used directly.
-/

/-! ### ANSI escape codes (`Colors` in `display.py`) -/

def ansiReset : String := "\x1b[0m"

def ansiWhite : String := "\x1b[37m"

def ansiBold : String := "\x1b[1m"

/-! ### `DisplayFormatter._format_info_line`

`padding = max_label_width - label_width + min_padding`, clamped below by
`min_padding`; Python `int` arithmetic is mirrored with `Int`. -/

def spacesOf (n : Nat) : String := String.mk (List.replicate n ' ')

def formatInfoLine (label value color : String) : String :=
  let minPadding : Int := 2
  let maxLabelWidth : Int := 12
  let labelWidth : Int := (label.length : Int)
  let padding0 : Int := maxLabelWidth - labelWidth + minPadding
  let padding : Int := if padding0 < minPadding then minPadding else padding0
  ansiBold ++ label ++ ansiReset ++ spacesOf padding.toNat ++ color ++ value ++ ansiReset

/-! ### `DisplayFormatter._format_duration`

The Python code builds `timedelta(milliseconds=ms)`, truncates
`total_seconds()` with `int(...)`, and zero-pads the seconds with
`f"{seconds:02d}"`.  For a non-negative integer `ms` this means:

* `timedelta(milliseconds=ms)` holds `us = ms * 1000` microseconds and
  raises `OverflowError` when the normalised day count
  `us // 86400000000` exceeds `999999999` (modelled as `none`);
* `total_seconds()` computes the exact integer quotient expression
  `((days * 86400 + seconds) * 10**6 + microseconds) / 10**6 = us / 10**6`
  with CPython's *true division* of two ints, which returns the IEEE-754
  binary64 double nearest to the rational value (ties to even);
* `int(...)` truncates that double toward zero.

`truncRoundDiv p q` computes `int(p / q)` of that pipeline exactly with
integer arithmetic: the nearest double to `p / q` is the nearest multiple
of `2 ^ (e - 52)` (ties to even), where `2 ^ e ≤ p / q < 2 ^ (e + 1)`
(no overflow or subnormals occur in the reachable range). -/

def pad2 (n : Nat) : String := if n < 10 then "0" ++ toString n else toString n

/-- Round `p / q` (with `q > 0`) to the nearest integer, ties to even. -/
def rhe (p q : Nat) : Nat :=
  let d := p / q
  let r := p % q
  if 2 * r < q then d
  else if q < 2 * r then d + 1
  else if d % 2 = 0 then d else d + 1

/-- Structural (fuel-bounded) base-2 logarithm: `2 ^ result ≤ n` and
`n < 2 ^ (result + 1)` whenever `1 ≤ n < 2 ^ fuel`. -/
def log2fuel : Nat → Nat → Nat
  | 0, _ => 0
  | fuel + 1, n => if 2 ≤ n then log2fuel fuel (n / 2) + 1 else 0

/-- The integer `e` with `2 ^ e ≤ p / q < 2 ^ (e + 1)`, for `p, q ≥ 1`
and enough `fuel` (`q ≤ p * 2 ^ fuel` and `p < q * 2 ^ fuel`). -/
def floorLog2Rat : Nat → Nat → Nat → Int
  | p, q, 0 => if q ≤ p then (log2fuel 0 (p / q) : Int) else 0
  | p, q, fuel + 1 =>
    if q ≤ p then (log2fuel (fuel + 1) (p / q) : Int) else floorLog2Rat (2 * p) q fuel - 1

/-- Exact model of `int(p / q)` for CPython int/int true division
followed by `int(...)` truncation (for the double-precision range used
here, `p / q < 2 ^ 63`). -/
def truncRoundDiv (p q : Nat) : Nat :=
  if p = 0 then 0
  else
    let e := floorLog2Rat p q 64
    let s := e - 52
    if 0 ≤ s then rhe p (q * 2 ^ s.toNat) * 2 ^ s.toNat
    else rhe (p * 2 ^ (-s).toNat) q / 2 ^ (-s).toNat

def formatDuration (ms : Nat) : Option String :=
  let us := ms * 1000
  let days := us / 86400000000
  if 999999999 < days then none
  else
    let totalSeconds := truncRoundDiv us 1000000
    let minutes := totalSeconds / 60
    let seconds := totalSeconds % 60
    some (toString minutes ++ ":" ++ pad2 seconds)

/-! ### `DisplayFormatter._format_ordinal_date`

`datetime.strptime(s, "%Y-%m-%d")` is modelled by `parseYMD`: CPython's
`_strptime` compiles `%Y` to the regex `\d\d\d\d`, `%m` to
`1[0-2]|0[1-9]|[1-9]` and `%d` to `3[0-1]|[1-2]\d|0[1-9]|[1-9]| [1-9]`
(note the final space-padded-day alternative of `%d`, so `"2020-01- 5"`
parses; ordered alternation, match anchored at the start, trailing
unconsumed input is an error), then `datetime(year, month, day)`
validates `1 <= year` and the day against the month length (Gregorian
leap rule).  `strftime("%b")` is
the C-locale English month abbreviation; `strftime("%Y")` on glibc prints
the year as a plain decimal number without zero padding. -/

def formatBool (b : Bool) : String := if b then "Yes" else "No"

/-! ### `ImageRenderer` (`display.py`)

`ImageRenderer.__init__(size)` sets `width = height = size`.

The interactions with the outside world are modelled by a `RenderEnv`
record: whether the `chafa` binary is installed, what a successful
`chafa` invocation produced on stdout (already split into lines, with
`None` standing for any failure inside `_render_with_chafa` — download
error, subprocess error — all of which that method catches and turns
into `None`), and the pixel grid of the downloaded image after
`_download_image` plus the `convert/fit` resampling of
`_get_block_art_lines` (with `None` standing for a download or decode
failure, which raises and is caught in `render_image_lines`).  The
resampled image is abstract: only its pixel values at the `width × height`
sample points matter to the emitted lines. -/

structure Renderer where
  width : Nat
  height : Nat

def mkRenderer (size : Nat) : Renderer := ⟨size, size⟩

def Rgb := Nat × Nat × Nat

structure RenderEnv where
  chafaAvailable : Bool
  chafaOutput : Option (List String)
  fallbackImage : Option (Nat → Nat → Rgb)

/-- Model of `_get_placeholder_lines`: the eight bordered lines, then blank
33-column lines appended by the `while len(lines) < 20` loop. -/
def placeholderVisible : List String :=
  [ " " ++ ansiWhite ++ "┌───────────────────────────────┐" ++ ansiReset,
    " " ++ ansiWhite ++ "│                               │" ++ ansiReset,
    " " ++ ansiWhite ++ "│                               │" ++ ansiReset,
    " " ++ ansiWhite ++ "│           NO IMAGE            │" ++ ansiReset,
    " " ++ ansiWhite ++ "│           AVAILABLE           │" ++ ansiReset,
    " " ++ ansiWhite ++ "│                               │" ++ ansiReset,
    " " ++ ansiWhite ++ "│                               │" ++ ansiReset,
    " " ++ ansiWhite ++ "└───────────────────────────────┘" ++ ansiReset ]

def placeholderLines : List String :=
  placeholderVisible ++ List.replicate (20 - placeholderVisible.length) (spacesOf 33)

/-- Model of `_get_block_art_lines`: one line per row, starting with a single
space of left padding, then per sample a 24-bit background colour block
of two spaces followed by a reset. -/
def blockArtLines (r : Renderer) (img : Nat → Nat → Rgb) : List String :=
  (List.range r.height).map (fun y =>
    (List.range r.width).foldl (fun line x =>
      let p := img x y
      line ++ "\x1b[48;2;" ++ toString p.1 ++ ";" ++ toString p.2.1 ++ ";"
        ++ toString p.2.2 ++ "m  " ++ ansiReset) " ")

/-- The tail of `_render_with_chafa`: left-pad each captured line by one
column, append blank lines of width `width * 2 + 1` while short of
`height`, then truncate to `height` lines. -/
def forceHeight (r : Renderer) (lines : List String) : List String :=
  (lines ++ List.replicate (r.height - lines.length) (spacesOf (r.width * 2 + 1))).take r.height

def renderWithChafa (r : Renderer) (env : RenderEnv) : Option (List String) :=
  match env.chafaOutput with
  | some raw => some (forceHeight r (raw.map (fun l => " " ++ l)))
  | none => none

/-- Model of `render_image_lines`: placeholder on an empty URL; else the `chafa`
path when available and its (truthy) output; else the block-art fallback;
placeholder if the fallback download/decode raises. -/
def renderImageLines (r : Renderer) (env : RenderEnv) (imageUrl : String) : List String :=
  if imageUrl = "" then placeholderLines
  else
    let chafaLines : Option (List String) :=
      if env.chafaAvailable then
        match renderWithChafa r env with
        | some lines => if lines = [] then none else some lines
        | none => none
      else none
    match chafaLines with
    | some lines => lines
    | none =>
      match env.fallbackImage with
      | some img => blockArtLines r img
      | none => placeholderLines

/-! ### `DisplayFormatter._display_side_by_side_with_links`

The method prints rows; the embedding returns the list of printed rows.
Python's `target_lines = max_lines - 2` can be negative, and a negative
value is later used both as a `range` bound (where it behaves like `0`)
and as a list index (where Python indexes from the end of the list and
raises `IndexError` when out of range).  `pyIdx` reproduces Python list
indexing, returning `none` for `IndexError`, and `displayRows` returns
`none` exactly when the Python method raises. -/

def blank46 : String := spacesOf 46

def pyIdx (xs : List String) (i : Int) : Option String :=
  let j : Int := if 0 ≤ i then i else (xs.length : Int) + i
  if 0 ≤ j ∧ j < (xs.length : Int) then xs.get? j.toNat else none

def pyIdxList (xs : List String) : List Int → Option (List String)
  | [] => some []
  | i :: rest =>
    match pyIdx xs i, pyIdxList xs rest with
    | some v, some vs => some (v :: vs)
    | _, _ => none

def intRange (a b : Int) : List Int :=
  (List.range (b - a).toNat).map (fun k : Nat => a + (k : Int))

/-- Model of `'spotify' in link.lower()` (ASCII lowering suffices for the
generated links). -/
def charsMatchAt : List Char → List Char → Bool
  | [], _ => true
  | _ :: _, [] => false
  | a :: as, b :: bs => a == b && charsMatchAt as bs

def charsHaveSub (needle : List Char) : List Char → Bool
  | [] => charsMatchAt needle []
  | c :: cs => charsMatchAt needle (c :: cs) || charsHaveSub needle cs

def containsSpotify (link : String) : Bool :=
  charsHaveSub "spotify".toList (link.toList.map Char.toLower)

/-- The `for link in links` loop followed by the two fallback `if`s:
later matches overwrite earlier ones; an empty string is falsy. -/
def pickLinks (links : List String) : String × String :=
  let pair := links.foldl
    (fun (p : String × String) link =>
      if containsSpotify link then (link, p.2) else (p.1, link)) ("", "")
  let spotifyLink := if pair.1 = "" ∧ links ≠ [] then links.headD "" else pair.1
  let imageLink := if pair.2 = "" ∧ 1 < links.length then links.getD 1 "" else pair.2
  (spotifyLink, imageLink)

def linkLine (spotifyLink imageLink : String) : String :=
  if spotifyLink ≠ "" ∧ imageLink ≠ "" then spotifyLink ++ "   " ++ imageLink
  else if spotifyLink ≠ "" then spotifyLink
  else imageLink

/-- The first loop: pad `info_lines` with empty strings up to
`target_lines`, then join row `i` of each side with three spaces,
substituting a 46-space blank (resp. the empty string) past the end. -/
def contentSection (imageLines infoLines : List String) : List String :=
  let target := max imageLines.length infoLines.length - 2
  let padded := infoLines ++ List.replicate (target - infoLines.length) ""
  (List.range target).map (fun i =>
    (if i < imageLines.length then imageLines.getD i "" else blank46) ++ "   " ++
    (if i < padded.length then padded.getD i "" else ""))

def displayRows (imageLines infoLines links : List String) : Option (List String) :=
  let maxLines := max imageLines.length infoLines.length
  let target : Int := (maxLines : Int) - 2
  let content := contentSection imageLines infoLines
  if links = [] then
    match pyIdxList imageLines (intRange target (imageLines.length : Int)) with
    | some trail => some (content ++ trail.map (fun l => l ++ "   "))
    | none => none
  else
    match (if target < (imageLines.length : Int) then pyIdx imageLines target else some blank46) with
    | none => none
    | some imageLine =>
      let p := pickLinks links
      match pyIdxList imageLines (intRange (target + 1) (imageLines.length : Int)) with
      | some trail =>
        some (content ++ (imageLine ++ "   " ++ linkLine p.1 p.2) :: trail.map (fun l => l ++ "   "))
      | none => none

/-! ### `search_auto` (`commands/search.py`)

Each of the three kinds is attempted inside its own `try`/`except` block:
`client.search` either raises (any transport/API error) or returns an
envelope whose `.get(<plural>, {}).get('items')` is a list (a missing key
degrades to an empty/absent value, which is falsy like `[]`).  When the
item list is non-empty, the first item is parsed/fetched and displayed —
any exception in that stage is caught by the same `except` and the next
kind is tried.  `KindAttempt` records one kind's environment: the search
outcome and whether the parse/fetch/display stage succeeds.  `items` is
the list of item identifiers. -/

structure KindAttempt where
  items : Except Unit (List String)
  processOk : Bool

/-- Returns `some x` when the kind's `try` block displays item `x` and returns;
`none` when it falls through to the next kind. -/
def attemptOutcome (k : KindAttempt) : Option String :=
  match k.items with
  | .error _ => none
  | .ok [] => none
  | .ok (x :: _) => if k.processOk then some x else none

inductive AutoOutcome where
  | displayed (kind : String) (item : String)
  | message (text : String)
deriving DecidableEq, Repr

def searchAuto (query : String) (track album artist : KindAttempt) : AutoOutcome :=
  match attemptOutcome track with
  | some x => .displayed "track" x
  | none =>
    match attemptOutcome album with
    | some x => .displayed "album" x
    | none =>
      match attemptOutcome artist with
      | some x => .displayed "artist" x
      | none => .message ("No results found for: " ++ query)

/-! ### `search_specific` (`commands/search.py`)

One `try` block wraps the search call and the kind-specific branches;
`except Exception as e` prints `"Search failed: <e>"` and exits with
status 1.  The environment carries the search outcome (payload item-id
lists per kind, missing keys already degraded to `[]`) and the outcome of
the selected branch's fetch/parse/display stage. -/

structure SearchPayload where
  tracks : List String
  albums : List String
  artists : List String

structure SpecificEnv where
  searchOutcome : Except String SearchPayload
  processOutcome : Except String Unit

structure SpecificResult where
  requested : Bool
  printed : List String
  displayed : Option (String × String)
  exitCode : Option Nat
deriving DecidableEq, Repr

def searchSpecific (query searchType : String) (env : SpecificEnv) : SpecificResult :=
  match env.searchOutcome with
  | .error e => ⟨true, ["Search failed: " ++ e], none, some 1⟩
  | .ok payload =>
    if searchType = "track" then
      match payload.tracks with
      | [] => ⟨true, ["No tracks found for: " ++ query], none, none⟩
      | x :: _ =>
        match env.processOutcome with
        | .ok _ => ⟨true, [], some ("track", x), none⟩
        | .error e => ⟨true, ["Search failed: " ++ e], none, some 1⟩
    else if searchType = "album" then
      match payload.albums with
      | [] => ⟨true, ["No albums found for: " ++ query], none, none⟩
      | x :: _ =>
        match env.processOutcome with
        | .ok _ => ⟨true, [], some ("album", x), none⟩
        | .error e => ⟨true, ["Search failed: " ++ e], none, some 1⟩
    else if searchType = "artist" then
      match payload.artists with
      | [] => ⟨true, ["No artists found for: " ++ query], none, none⟩
      | x :: _ =>
        match env.processOutcome with
        | .ok _ => ⟨true, [], some ("artist", x), none⟩
        | .error e => ⟨true, ["Search failed: " ++ e], none, some 1⟩
    else ⟨true, [], none, none⟩

/-! ### `SpotifyClient._authenticate` (`spotify_client.py`)

State: the cached `access_token` and `token_expiry` (initially `None` and
`0`).  Environment: the two `time.time()` samples taken during the call
(the comparison and the expiry computation) and the token endpoint's
response.  The result is `Except` of the raised message; the `Bool`
records whether a token-exchange HTTP request was performed. -/

structure AuthState where
  accessToken : Option String
  tokenExpiry : Nat
deriving DecidableEq, Repr

structure AuthEnv where
  now1 : Nat
  now2 : Nat
  status : Nat
  body : String
  tokenValue : String
  expiresIn : Nat

def authenticate (s : AuthState) (env : AuthEnv) : Except String (AuthState × Bool) :=
  if env.now1 < s.tokenExpiry then .ok (s, false)
  else if env.status ≠ 200 then
    .error ("Authentication failed: " ++ toString env.status ++ " - " ++ env.body)
  else .ok ({ accessToken := some env.tokenValue, tokenExpiry := env.now2 + env.expiresIn }, true)

/-! ## Theorems -/

theorem log2fuel_spec :
    ∀ (fuel n : Nat), 1 ≤ n → n < 2 ^ fuel →
      2 ^ log2fuel fuel n ≤ n ∧ n < 2 ^ (log2fuel fuel n + 1) := by
  intro fuel
  induction fuel with
  | zero =>
    intro n hn hub
    rw [pow_zero] at hub
    omega
  | succ f ih =>
    intro n hn hub
    by_cases h2 : 2 ≤ n
    · simp only [log2fuel, if_pos h2]
      have hhalf : n / 2 < 2 ^ f := by
        have hps : (2 : Nat) ^ (f + 1) = 2 * 2 ^ f := by ring
        omega
      obtain ⟨hA, hB⟩ := ih (n / 2) (by omega) hhalf
      have e1 : (2 : Nat) ^ (log2fuel f (n / 2) + 1) = 2 * 2 ^ log2fuel f (n / 2) := by ring
      have e2 : (2 : Nat) ^ (log2fuel f (n / 2) + 1 + 1) =
          4 * 2 ^ log2fuel f (n / 2) := by ring
      rw [e1] at hB ⊢
      rw [e2]
      omega
    · simp only [log2fuel, if_neg h2]
      rw [pow_zero, pow_one]
      omega

theorem floorLog2Rat_base {p q fuel : Nat} (hq : 1 ≤ q) (hqp : q ≤ p)
    (hub : p < q * 2 ^ fuel) :
    q * 2 ^ ((log2fuel fuel (p / q) : Int)).toNat ≤
      p * 2 ^ (-(log2fuel fuel (p / q) : Int)).toNat ∧
    p * 2 ^ (-(log2fuel fuel (p / q) : Int)).toNat <
      2 * (q * 2 ^ ((log2fuel fuel (p / q) : Int)).toNat) := by
  have hd : 1 ≤ p / q := (Nat.le_div_iff_mul_le hq).2 (by omega)
  have hdu : p / q < 2 ^ fuel := (Nat.div_lt_iff_lt_mul hq).2 (by
    calc p < q * 2 ^ fuel := hub
    _ = 2 ^ fuel * q := by ring)
  obtain ⟨h1, h2⟩ := log2fuel_spec fuel (p / q) hd hdu
  have ht1 : ((log2fuel fuel (p / q) : Int)).toNat = log2fuel fuel (p / q) := by omega
  have ht2 : (-(log2fuel fuel (p / q) : Int)).toNat = 0 := by omega
  rw [ht1, ht2, pow_zero, mul_one]
  constructor
  · rw [mul_comm]
    exact (Nat.le_div_iff_mul_le hq).1 h1
  · calc p < 2 ^ (log2fuel fuel (p / q) + 1) * q := (Nat.div_lt_iff_lt_mul hq).1 h2
    _ = 2 * (q * 2 ^ log2fuel fuel (p / q)) := by ring

theorem floorLog2Rat_spec :
    ∀ (fuel p q : Nat), 1 ≤ p → 1 ≤ q → q ≤ p * 2 ^ fuel → p < q * 2 ^ fuel →
      q * 2 ^ (floorLog2Rat p q fuel).toNat ≤ p * 2 ^ (-(floorLog2Rat p q fuel)).toNat ∧
      p * 2 ^ (-(floorLog2Rat p q fuel)).toNat < 2 * (q * 2 ^ (floorLog2Rat p q fuel).toNat) := by
  intro fuel
  induction fuel with
  | zero =>
    intro p q hp hq hf hub
    rw [pow_zero, mul_one] at hf hub
    omega
  | succ n ih =>
    intro p q hp hq hf hub
    by_cases hqp : q ≤ p
    · simpa only [floorLog2Rat, if_pos hqp] using floorLog2Rat_base hq hqp hub
    · simp only [floorLog2Rat, if_neg hqp]
      rcases n with _ | n'
      · -- fuel exhausted below: here q ≤ 2p and p < q close the bounds directly
        have hf1 : q ≤ p * 2 := by
          have : p * 2 ^ (0 + 1) = p * 2 := by ring
          omega
        have hqp2 : q ≤ 2 * p := by omega
        simp only [floorLog2Rat, if_pos hqp2]
        have hlog : log2fuel 0 (2 * p / q) = 0 := rfl
        rw [hlog]
        norm_num
        rw [show ((-1 : Int)).toNat = 0 from rfl]
        norm_num
        omega
      · have hf2 : q ≤ 2 * p * 2 ^ (n' + 1) := by
          have hps : p * 2 ^ (n' + 1 + 1) = 2 * p * 2 ^ (n' + 1) := by ring
          omega
        have hub2 : 2 * p < q * 2 ^ (n' + 1) := by
          have h2q : (2 : Nat) ≤ 2 ^ (n' + 1) := by
            calc (2 : Nat) = 2 ^ 1 := (pow_one 2).symm
            _ ≤ 2 ^ (n' + 1) := Nat.pow_le_pow_right (by omega) (by omega)
          have : q * 2 ≤ q * 2 ^ (n' + 1) := Nat.mul_le_mul_left q h2q
          omega
        obtain ⟨hA, hB⟩ := ih (2 * p) q (by omega) hq hf2 hub2
        set E := floorLog2Rat (2 * p) q (n' + 1) with hE
        have hE0 : E ≤ 0 := by
          by_contra hpos
          push_neg at hpos
          have h1 : 1 ≤ E.toNat := by omega
          have h2 : (-E).toNat = 0 := by omega
          rw [h2, pow_zero, mul_one] at hA
          have h3 : q * 2 ≤ q * 2 ^ E.toNat := by
            have : (2 : Nat) ≤ 2 ^ E.toNat := by
              calc (2 : Nat) = 2 ^ 1 := (pow_one 2).symm
              _ ≤ 2 ^ E.toNat := Nat.pow_le_pow_right (by omega) h1
            exact Nat.mul_le_mul_left q this
          omega
        have hEt : E.toNat = 0 := by omega
        have hEt1 : (E - 1).toNat = 0 := by omega
        have hneg : (-(E - 1)).toNat = (-E).toNat + 1 := by omega
        rw [hEt, pow_zero, mul_one] at hA hB
        rw [hEt1, hneg, pow_zero, mul_one]
        have hkey : p * 2 ^ ((-E).toNat + 1) = 2 * p * 2 ^ (-E).toNat := by ring
        rw [hkey]
        exact ⟨hA, hB⟩

/-- Correctness of the float model below the first divergent input: for
`ms < 17592186044416999`, truncating the correctly-rounded double
`(ms * 1000) / 10 ** 6` equals exact floor division. -/
theorem truncRoundDiv_msec (ms : Nat) (hms : ms < 17592186044416999) :
    truncRoundDiv (ms * 1000) 1000000 = ms * 1000 / 1000000 := by
  rcases Nat.eq_zero_or_pos ms with h0 | hpos
  · subst h0
    rfl
  · have hN0 : ¬ ms * 1000 = 0 := by omega
    simp only [truncRoundDiv, if_neg hN0]
    have hfuel : (1000000 : Nat) ≤ ms * 1000 * 2 ^ 64 := by
      have h64 : (2 : Nat) ^ 64 = 18446744073709551616 := by norm_num
      rw [h64]
      omega
    have hub : ms * 1000 < 1000000 * 2 ^ 64 := by
      have h64 : (2 : Nat) ^ 64 = 18446744073709551616 := by norm_num
      rw [h64]
      omega
    obtain ⟨hlo, hhi⟩ :=
      floorLog2Rat_spec 64 (ms * 1000) 1000000 (by omega) (by norm_num) hfuel hub
    set e := floorLog2Rat (ms * 1000) 1000000 64 with he
    have he44 : e ≤ 44 := by
      by_contra hgt
      push_neg at hgt
      have h1 : (-e).toNat = 0 := by omega
      have h2 : 45 ≤ e.toNat := by omega
      rw [h1, pow_zero, mul_one] at hlo
      have h3 : (2 : Nat) ^ 45 ≤ 2 ^ e.toNat := Nat.pow_le_pow_right (by omega) h2
      have h4 : (2 : Nat) ^ 45 = 35184372088832 := by norm_num
      have h5 : 1000000 * 2 ^ 45 ≤ 1000000 * 2 ^ e.toNat := Nat.mul_le_mul_left _ h3
      rw [h4] at h5
      omega
    have hs : ¬ (0 : Int) ≤ e - 52 := by omega
    rw [if_neg hs]
    set t := (-(e - 52)).toNat with htdef
    have ht8 : 8 ≤ t := by omega
    -- decompose ms and the scaled numerator
    set d := ms / 1000 with hd
    set r := ms % 1000 with hr
    have hdr : ms = 1000 * d + r := by rw [hd, hr]; omega
    have hrlt : r < 1000 := by rw [hr]; omega
    have hPpos : 0 < 2 ^ t := Nat.two_pow_pos t
    have hAeq : ms * 1000 * 2 ^ t = 1000000 * (d * 2 ^ t) + 1000 * (r * 2 ^ t) := by
      rw [hdr]; ring
    have hBlt : 1000 * (r * 2 ^ t) < 1000000 * 2 ^ t := by
      have h1 : 1000 * r < 1000000 := by omega
      calc 1000 * (r * 2 ^ t) = 1000 * r * 2 ^ t := by ring
      _ < 1000000 * 2 ^ t := (Nat.mul_lt_mul_right hPpos).2 h1
    have hd0 : ms * 1000 * 2 ^ t / 1000000 = d * 2 ^ t + 1000 * (r * 2 ^ t) / 1000000 := by
      rw [hAeq, Nat.mul_add_div (by norm_num)]
    have hr0 : ms * 1000 * 2 ^ t % 1000000 = 1000 * (r * 2 ^ t) % 1000000 := by
      rw [hAeq, Nat.mul_add_mod]
    have hclt : 1000 * (r * 2 ^ t) / 1000000 < 2 ^ t :=
      (Nat.div_lt_iff_lt_mul (by norm_num)).2 (by
        calc 1000 * (r * 2 ^ t) < 1000000 * 2 ^ t := hBlt
        _ = 2 ^ t * 1000000 := by ring)
    -- name the pieces
    set c := 1000 * (r * 2 ^ t) / 1000000 with hc
    set r0 := 1000 * (r * 2 ^ t) % 1000000 with hr0def
    have hcr0 : 1000 * (r * 2 ^ t) = 1000000 * c + r0 := by
      rw [hc, hr0def]; omega
    have hr0lt : r0 < 1000000 := by rw [hr0def]; omega
    -- the rounded numerator is d0 or d0 + 1 (the latter only above a half)
    have hm : rhe (ms * 1000 * 2 ^ t) 1000000 = d * 2 ^ t + c ∨
        (rhe (ms * 1000 * 2 ^ t) 1000000 = d * 2 ^ t + c + 1 ∧ 1000000 ≤ 2 * r0) := by
      simp only [rhe, hd0, hr0, ← hc, ← hr0def]
      split_ifs with h1 h2 h3
      · exact Or.inl rfl
      · exact Or.inr ⟨rfl, by omega⟩
      · exact Or.inl rfl
      · exact Or.inr ⟨rfl, by omega⟩
    -- conclude: the division by 2^t recovers d = N / 10^6
    have hgoal : ms * 1000 / 1000000 = d := by
      rw [show (1000000 : Nat) = 1000 * 1000 from rfl, hd]
      exact Nat.mul_div_mul_right ms 1000 (by norm_num)
    rw [hgoal]
    rcases hm with hm | ⟨hm, hhalf⟩
    · rw [hm, show d * 2 ^ t + c = 2 ^ t * d + c from by ring, Nat.mul_add_div hPpos,
        Nat.div_eq_of_lt hclt]
      omega
    · rw [hm]
      -- show the round-up cannot cross the next power-of-two block
      have hclt2 : c + 1 < 2 ^ t := by
        by_contra hcross
        push_neg at hcross
        have hceq : c + 1 = 2 ^ t := by omega
        have hQle : r * 2 ^ t ≤ 999 * 2 ^ t := Nat.mul_le_mul_right _ (by omega)
        rcases Nat.lt_or_ge t 9 with ht' | ht'
        · -- only t = 8 remains, forcing r = 999 and e = 44
          have ht8' : t = 8 := by omega
          rw [ht8', show (2 : Nat) ^ 8 = 256 from by norm_num] at hceq hcr0
          have hr999 : r = 999 := by omega
          have he4 : e = 44 := by omega
          have het : e.toNat = 44 := by omega
          have hent : (-e).toNat = 0 := by omega
          rw [het, hent, pow_zero, mul_one,
            show (2 : Nat) ^ 44 = 17592186044416 from by norm_num] at hlo
          omega
        · have h512 : (512 : Nat) ≤ 2 ^ t := by
            calc (512 : Nat) = 2 ^ 9 := by norm_num
            _ ≤ 2 ^ t := Nat.pow_le_pow_right (by omega) ht'
          -- linear contradiction in the atoms 2 ^ t and r * 2 ^ t
          omega
      rw [show d * 2 ^ t + c + 1 = 2 ^ t * d + (c + 1) from by ring, Nat.mul_add_div hPpos,
        Nat.div_eq_of_lt hclt2]
      omega

/-- C8 counterexample: the program truncates a correctly-rounded float,
so at `ms = 17592186044416999` it prints seconds `17` where the claimed
exact floor decomposition gives `16`; and `timedelta` raises
`OverflowError` (no string at all) from `ms = 86400000000000000`. -/
theorem format_duration_float_counterexample :
    formatDuration 17592186044416999 = some "293203100740:17" ∧
    toString (17592186044416999 / 60000) ++ ":" ++ pad2 (17592186044416999 / 1000 % 60) =
      "293203100740:16" ∧
    formatDuration 86400000000000000 = none := by
  refine ⟨by decide, by decide, by decide⟩

/-- C8 amended: for every millisecond count below the first
float-rounding divergence (`ms < 17592186044416999`, far beyond any
track duration), the duration formatter returns
`"{ms div 60000}:{(ms div 1000) mod 60, zero-padded to 2 digits}"`; in
particular `125000 ms → "2:05"` and `59999 ms → "0:59"`.  From
`ms = 86400000000000000` the `timedelta` constructor raises
`OverflowError` instead of returning a string. -/
theorem format_duration_spec :
    (∀ ms : Nat, ms < 17592186044416999 →
      formatDuration ms = some (toString (ms / 60000) ++ ":" ++ pad2 (ms / 1000 % 60))) ∧
    (∀ ms : Nat, 86400000000000000 ≤ ms → formatDuration ms = none) ∧
    formatDuration 125000 = some "2:05" ∧ formatDuration 59999 = some "0:59" := by
  refine ⟨fun ms hms => ?_, fun ms hms => ?_, by decide, by decide⟩
  · have hdays : ¬ 999999999 < ms * 1000 / 86400000000 := by
      have : ms * 1000 / 86400000000 < 1000000000 :=
        (Nat.div_lt_iff_lt_mul (by norm_num)).2 (by omega)
      omega
    simp only [formatDuration, if_neg hdays, truncRoundDiv_msec ms hms]
    have h1 : ms * 1000 / 1000000 = ms / 1000 := by
      rw [show (1000000 : Nat) = 1000 * 1000 from rfl]
      exact Nat.mul_div_mul_right ms 1000 (by norm_num)
    rw [h1, Nat.div_div_eq_div_mul]
  · have hdays : 999999999 < ms * 1000 / 86400000000 := by
      have : (1000000000 : Nat) ≤ ms * 1000 / 86400000000 :=
        (Nat.le_div_iff_mul_le (by norm_num)).2 (by omega)
      omega
    simp only [formatDuration, if_pos hdays]

/-- Witness for `format_duration_spec`, discharging the range hypotheses
at concrete inputs. -/
theorem format_duration_spec_witness :
    formatDuration 125000 = some (toString (125000 / 60000) ++ ":" ++ pad2 (125000 / 1000 % 60)) ∧
    formatDuration 86400000000000000 = none :=
  ⟨format_duration_spec.1 125000 (by decide),
   format_duration_spec.2.1 86400000000000000 (by decide)⟩

/-- C7: `_authenticate` is lazy and at-most-once per expiry: when the
current time is before the cached expiry it performs no token-exchange
request and leaves the state unchanged; otherwise it exchanges
credentials, and either updates the cached token and expiry (HTTP 200)
or raises an error carrying the status code and response body. -/
theorem authenticate_lazy_refresh :
    ∀ (s : AuthState) (env : AuthEnv),
      (env.now1 < s.tokenExpiry → authenticate s env = .ok (s, false)) ∧
      (¬ env.now1 < s.tokenExpiry → env.status = 200 →
        authenticate s env =
          .ok ({ accessToken := some env.tokenValue, tokenExpiry := env.now2 + env.expiresIn }, true)) ∧
      (¬ env.now1 < s.tokenExpiry → env.status ≠ 200 →
        authenticate s env =
          .error ("Authentication failed: " ++ toString env.status ++ " - " ++ env.body)) := by
  intro s env
  refine ⟨fun h => by simp [authenticate, h], fun h hs => by simp [authenticate, h, hs],
    fun h hs => by simp [authenticate, h, hs]⟩

/-- Witness for `authenticate_lazy_refresh` at concrete states. -/
theorem authenticate_lazy_refresh_witness :
    authenticate ⟨some "tok", 10⟩ ⟨5, 6, 0, "", "", 0⟩ = .ok (⟨some "tok", 10⟩, false) ∧
    authenticate ⟨none, 0⟩ ⟨5, 7, 200, "", "fresh", 3600⟩ = .ok (⟨some "fresh", 3607⟩, true) ∧
    authenticate ⟨none, 0⟩ ⟨5, 7, 404, "not found", "", 0⟩ =
      .error "Authentication failed: 404 - not found" :=
  ⟨(authenticate_lazy_refresh ⟨some "tok", 10⟩ ⟨5, 6, 0, "", "", 0⟩).1 (by decide),
   (authenticate_lazy_refresh ⟨none, 0⟩ ⟨5, 7, 200, "", "fresh", 3600⟩).2.1 (by decide) rfl,
   (authenticate_lazy_refresh ⟨none, 0⟩ ⟨5, 7, 404, "not found", "", 0⟩).2.2 (by decide) (by decide)⟩

/-- C6 counterexample: the claim's padding formula `max(2, 12 − label
length)` does not match the code; for the label `"Name"` the code emits
`12 − 4 + 2 = 10` spaces, not `max(2, 12 − 4) = 8`. -/
theorem format_info_line_padding_counterexample :
    formatInfoLine "Name" "value" "c" ≠
      ansiBold ++ "Name" ++ ansiReset ++ spacesOf (max 2 (12 - "Name".length)) ++
        "c" ++ "value" ++ ansiReset := by
  decide

/-- C6 amended: the formatted info line is the bold label, then exactly
`max(2, 12 − label length + 2) = max(2, 14 − label length)` spaces of
padding, then the color-coded value, then a reset; consequently all
values for labels up to 12 characters long align at one fixed column
(label plus padding is always 14 columns). -/
theorem format_info_line_padding :
    ∀ label value color : String,
      formatInfoLine label value color =
        ansiBold ++ label ++ ansiReset ++ spacesOf (max 2 (14 - label.length)) ++
          color ++ value ++ ansiReset ∧
      (label.length ≤ 12 → label.length + max 2 (14 - label.length) = 14) := by
  intro label value color
  constructor
  · simp only [formatInfoLine]
    have h : (if (12 : Int) - (label.length : Int) + 2 < 2 then (2 : Int)
        else 12 - (label.length : Int) + 2).toNat = max 2 (14 - label.length) := by
      by_cases hc : (12 : Int) - (label.length : Int) + 2 < 2
      · rw [if_pos hc]; omega
      · rw [if_neg hc]; omega
    rw [h]
  · intro h
    omega

/-- Witness for `format_info_line_padding` at a concrete label. -/
theorem format_info_line_padding_witness :
    formatInfoLine "Name" "value" "c" =
      ansiBold ++ "Name" ++ ansiReset ++ spacesOf (max 2 (14 - "Name".length)) ++
        "c" ++ "value" ++ ansiReset ∧
    "Name".length + max 2 (14 - "Name".length) = 14 :=
  ⟨(format_info_line_padding "Name" "value" "c").1,
   (format_info_line_padding "Name" "value" "c").2 (by decide)⟩

/-- C4: auto search tries track, album, artist in that fixed order; the
first kind whose search yields a non-empty item list (and whose
fetch/parse/display succeeds) is displayed and the remaining kinds are
not attempted (the result does not depend on their environments); an
empty result or an exception for one kind moves on to the next; if all
three kinds yield nothing, the terminal non-error outcome is the message
`"No results found for: <query>"`. -/
theorem search_auto_cascade :
    ∀ (q : String) (t a r : KindAttempt),
      (∀ x xs, t.items = .ok (x :: xs) → t.processOk = true →
        searchAuto q t a r = .displayed "track" x) ∧
      (attemptOutcome t = none → ∀ x xs, a.items = .ok (x :: xs) → a.processOk = true →
        searchAuto q t a r = .displayed "album" x) ∧
      (attemptOutcome t = none → attemptOutcome a = none →
        ∀ x xs, r.items = .ok (x :: xs) → r.processOk = true →
        searchAuto q t a r = .displayed "artist" x) ∧
      (∀ k : KindAttempt, k.items = .error () ∨ k.items = .ok [] → attemptOutcome k = none) ∧
      (attemptOutcome t = none → attemptOutcome a = none → attemptOutcome r = none →
        searchAuto q t a r = .message ("No results found for: " ++ q)) := by
  intro q t a r
  refine ⟨fun x xs hi hp => ?_, fun ht x xs hi hp => ?_, fun ht ha x xs hi hp => ?_,
    fun k hk => ?_, fun ht ha hr => ?_⟩
  · simp [searchAuto, attemptOutcome, hi, hp]
  · unfold searchAuto
    rw [ht]
    simp [attemptOutcome, hi, hp]
  · unfold searchAuto
    rw [ht, ha]
    simp [attemptOutcome, hi, hp]
  · rcases hk with hk | hk <;> simp [attemptOutcome, hk]
  · unfold searchAuto
    rw [ht, ha, hr]

/-- Witness for `search_auto_cascade`: a track hit is displayed no
matter what the album and artist environments hold, and three empty
kinds produce the no-results message. -/
theorem search_auto_cascade_witness :
    searchAuto "q" ⟨.ok ["T1"], true⟩ ⟨.error (), false⟩ ⟨.ok [], true⟩ =
      .displayed "track" "T1" ∧
    searchAuto "q" ⟨.error (), true⟩ ⟨.ok [], true⟩ ⟨.ok [], false⟩ =
      .message "No results found for: q" :=
  ⟨(search_auto_cascade "q" ⟨.ok ["T1"], true⟩ ⟨.error (), false⟩ ⟨.ok [], true⟩).1
      "T1" [] rfl rfl,
   (search_auto_cascade "q" ⟨.error (), true⟩ ⟨.ok [], true⟩ ⟨.ok [], false⟩).2.2.2.2
      (by decide) (by decide) (by decide)⟩

/-- C10: for every kind outside `{track, album, artist}`, the
type-specific search handler still issues the search request, and when
that request succeeds it displays nothing, prints no message, and does
not exit — a silent no-op at the public search interface. -/
theorem search_specific_unknown_kind_silent :
    ∀ (q kind : String) (env : SpecificEnv),
      (searchSpecific q kind env).requested = true ∧
      (kind ≠ "track" → kind ≠ "album" → kind ≠ "artist" →
        ∀ payload, env.searchOutcome = .ok payload →
          searchSpecific q kind env = ⟨true, [], none, none⟩) := by
  intro q kind env
  constructor
  · unfold searchSpecific
    rcases env.searchOutcome with e | payload
    · rfl
    · dsimp only
      split_ifs
      · rcases payload.tracks with _ | ⟨x, xs⟩
        · rfl
        · rcases env.processOutcome with e | u <;> rfl
      · rcases payload.albums with _ | ⟨x, xs⟩
        · rfl
        · rcases env.processOutcome with e | u <;> rfl
      · rcases payload.artists with _ | ⟨x, xs⟩
        · rfl
        · rcases env.processOutcome with e | u <;> rfl
      · rfl
  · intro h1 h2 h3 payload hp
    simp [searchSpecific, hp, h1, h2, h3]

/-- Witness for `search_specific_unknown_kind_silent` at the kind
`"playlist"`. -/
theorem search_specific_unknown_kind_silent_witness :
    (searchSpecific "q" "playlist" ⟨.ok ⟨[], [], []⟩, .ok ()⟩).requested = true ∧
    searchSpecific "q" "playlist" ⟨.ok ⟨[], [], []⟩, .ok ()⟩ = ⟨true, [], none, none⟩ :=
  ⟨(search_specific_unknown_kind_silent "q" "playlist" ⟨.ok ⟨[], [], []⟩, .ok ()⟩).1,
   (search_specific_unknown_kind_silent "q" "playlist" ⟨.ok ⟨[], [], []⟩, .ok ()⟩).2
      (by decide) (by decide) (by decide) ⟨[], [], []⟩ rfl⟩

theorem forceHeight_length (r : Renderer) (lines : List String) :
    (forceHeight r lines).length = r.height := by
  simp only [forceHeight, List.length_take, List.length_append, List.length_replicate]
  omega

theorem blockArtLines_length (r : Renderer) (img : Nat → Nat → Rgb) :
    (blockArtLines r img).length = r.height := by
  simp [blockArtLines]

/-- C1 counterexample: for a renderer of configured size 25 (a legal
size, within the caller's `[15, 35]` clamp) and a non-empty URL, the
placeholder path returns the fixed 20-line box, not 25 lines, so
`render_image_lines` does not return exactly `height` lines on every
renderer path. -/
theorem render_image_lines_fixed_height_counterexample :
    "x" ≠ "" ∧
    (renderImageLines (mkRenderer 25) ⟨false, none, none⟩ "x").length ≠ (mkRenderer 25).height := by
  decide

/-- C1 amended: for every non-empty image URL, `render_image_lines`
never raises (it is total) and returns either exactly `height` lines (on
the external-renderer and block-art paths) or the fixed placeholder grid
of 20 lines (when both paths fail); the two counts coincide only when
`height = 20`. -/
theorem render_image_lines_height_or_placeholder :
    ∀ (r : Renderer) (env : RenderEnv) (url : String), url ≠ "" →
      ((renderImageLines r env url).length = r.height ∨
        renderImageLines r env url = placeholderLines) ∧
      placeholderLines.length = 20 := by
  intro r env url hu
  refine ⟨?_, by decide⟩
  unfold renderImageLines
  rw [if_neg hu]
  rcases hav : env.chafaAvailable with _ | _
  · rcases hf : env.fallbackImage with _ | img
    · simp [hav, hf]
    · simp [hav, hf, blockArtLines_length]
  · rcases hout : env.chafaOutput with _ | raw
    · rcases hf : env.fallbackImage with _ | img
      · simp [hav, hout, renderWithChafa, hf]
      · simp [hav, hout, renderWithChafa, hf, blockArtLines_length]
    · by_cases hempty : forceHeight r (raw.map (fun l => " " ++ l)) = []
      · rcases hf : env.fallbackImage with _ | img
        · simp [hav, hout, renderWithChafa, hempty, hf]
        · simp [hav, hout, renderWithChafa, hempty, hf, blockArtLines_length]
      · simp [hav, hout, renderWithChafa, hempty, forceHeight_length]

/-- Witness for `render_image_lines_height_or_placeholder` at a concrete
renderer and environment. -/
theorem render_image_lines_height_or_placeholder_witness :
    ((renderImageLines (mkRenderer 16) ⟨true, some ["line"], none⟩ "u").length =
        (mkRenderer 16).height ∨
      renderImageLines (mkRenderer 16) ⟨true, some ["line"], none⟩ "u" = placeholderLines) ∧
    placeholderLines.length = 20 :=
  render_image_lines_height_or_placeholder (mkRenderer 16) ⟨true, some ["line"], none⟩ "u"
    (by decide)

/-- C5: with an empty image URL, or whenever the block-art fallback is
reached and its image download/decode fails, `render_image_lines`
returns the fixed placeholder grid: the 8 visible bordered lines padded
with blank 33-column lines to 20 lines total. -/
theorem render_image_lines_placeholder_cases :
    ∀ (r : Renderer) (env : RenderEnv),
      renderImageLines r env "" = placeholderLines ∧
      (∀ url : String, url ≠ "" → env.fallbackImage = none →
        env.chafaAvailable = false ∨ env.chafaOutput = none ∨ r.height = 0 →
        renderImageLines r env url = placeholderLines) ∧
      placeholderLines = placeholderVisible ++ List.replicate 12 (spacesOf 33) ∧
      placeholderVisible.length = 8 ∧
      placeholderLines.length = 20 := by
  intro r env
  refine ⟨by simp [renderImageLines], ?_, by decide, by decide, by decide⟩
  intro url hu hf hcase
  unfold renderImageLines
  rw [if_neg hu]
  rcases hcase with h | h | h
  · simp [h, hf]
  · rcases hav : env.chafaAvailable with _ | _
    · simp [hav, hf]
    · simp [hav, renderWithChafa, h, hf]
  · rcases hav : env.chafaAvailable with _ | _
    · simp [hav, hf]
    · rcases hout : env.chafaOutput with _ | raw
      · simp [hav, hout, renderWithChafa, hf]
      · simp [hav, hout, renderWithChafa, forceHeight, h, hf]

/-- Witness for `render_image_lines_placeholder_cases`: the empty-URL
case and a failed-fallback case both yield the placeholder grid. -/
theorem render_image_lines_placeholder_cases_witness :
    renderImageLines (mkRenderer 20) ⟨true, none, none⟩ "" = placeholderLines ∧
    renderImageLines (mkRenderer 20) ⟨true, none, none⟩ "u" = placeholderLines :=
  ⟨(render_image_lines_placeholder_cases (mkRenderer 20) ⟨true, none, none⟩).1,
   (render_image_lines_placeholder_cases (mkRenderer 20) ⟨true, none, none⟩).2.1 "u"
      (by decide) rfl (Or.inr (Or.inl rfl))⟩

theorem getD_append_replicate_empty (l : List String) (k i : Nat) :
    (l ++ List.replicate k "").getD i "" = l.getD i "" := by
  simp only [List.getD_eq_getElem?_getD]
  rcases Nat.lt_or_ge i l.length with h | h
  · rw [List.getElem?_append_left h]
  · rw [List.getElem?_append_right h, List.getElem?_eq_none h]
    rw [List.getElem?_replicate]
    split <;> rfl

theorem pyIdx_eq_get? {xs : List String} {i : Int} (h0 : 0 ≤ i)
    (h1 : i < (xs.length : Int)) : pyIdx xs i = xs.get? i.toNat := by
  simp only [pyIdx]
  rw [if_pos h0, if_pos ⟨h0, h1⟩]

theorem mem_intRange {i a b : Int} (h : i ∈ intRange a b) : a ≤ i ∧ i < b := by
  simp only [intRange, List.mem_map] at h
  obtain ⟨k, hk, hik⟩ := h
  rw [List.mem_range] at hk
  omega

theorem intRange_eq_nil {a b : Int} (h : b ≤ a) : intRange a b = [] := by
  have hz : (b - a).toNat = 0 := by omega
  simp [intRange, hz]

theorem pyIdxList_some_of_bounds (xs : List String) :
    ∀ idxs : List Int, (∀ i ∈ idxs, 0 ≤ i ∧ i < (xs.length : Int)) →
      ∃ vs, pyIdxList xs idxs = some vs := by
  intro idxs
  induction idxs with
  | nil => exact fun _ => ⟨[], rfl⟩
  | cons i rest ih =>
    intro h
    obtain ⟨h0, h1⟩ := h i (List.mem_cons_self i rest)
    obtain ⟨vs, hvs⟩ := ih (fun j hj => h j (List.mem_cons_of_mem i hj))
    have hlt : i.toNat < xs.length := by omega
    have hg : xs[i.toNat]? = some (xs.getD i.toNat "") := by
      rw [List.getD_eq_getElem?_getD, List.getElem?_eq_getElem hlt]
      rfl
    exact ⟨xs.getD i.toNat "" :: vs, by
      simp only [pyIdxList, pyIdx_eq_get? h0 h1, List.get?_eq_getElem?, hg, hvs]⟩

theorem intRange_succ_head {a b : Int} (h : a < b) :
    intRange a b = a :: intRange (a + 1) b := by
  have hn : (b - a).toNat = (b - (a + 1)).toNat + 1 := by omega
  unfold intRange
  rw [hn, List.range_succ_eq_map, List.map_cons, List.map_map]
  congr 1
  · simp
  · apply List.map_congr_left
    intro k _
    simp only [Function.comp_apply, Nat.succ_eq_add_one]
    push_cast
    ring

theorem pyIdxList_intRange_drop (xs : List String) :
    ∀ (n : Nat) (a : Int), 0 ≤ a → ((xs.length : Int) - a).toNat = n →
      pyIdxList xs (intRange a (xs.length : Int)) = some (xs.drop a.toNat) := by
  intro n
  induction n with
  | zero =>
    intro a h0 hn
    rw [intRange_eq_nil (by omega), List.drop_eq_nil_of_le (by omega)]
    rfl
  | succ m ih =>
    intro a h0 hn
    have hlt : a < (xs.length : Int) := by omega
    rw [intRange_succ_head hlt]
    have hrec := ih (a + 1) (by omega) (by omega)
    have hlen : a.toNat < xs.length := by omega
    have hdrop : xs.drop a.toNat = xs.get ⟨a.toNat, hlen⟩ :: xs.drop (a.toNat + 1) := by
      rw [List.drop_eq_getElem_cons hlen]
      rfl
    have hget : xs.get? a.toNat = some (xs.get ⟨a.toNat, hlen⟩) := List.get?_eq_get hlen
    have htn : (a + 1).toNat = a.toNat + 1 := by omega
    simp only [pyIdxList, pyIdx_eq_get? h0 hlt, hget, hrec, htn, hdrop]

theorem contentSection_length (im info : List String) :
    (contentSection im info).length = max im.length info.length - 2 := by
  simp [contentSection]

/-- The link-branch of the compositor in the regular regime
`max(len(imageLines), len(infoLines)) ≥ 2` (every caller passes at least
15 image lines): the printed rows are the content rows, then the link
row beside image row `max − 2`, then the remaining image rows. -/
theorem displayRows_links_eq (im info links : List String) (hl : ¬ links = [])
    (ht : 2 ≤ max im.length info.length) :
    displayRows im info links =
      some (contentSection im info ++
        ((if max im.length info.length - 2 < im.length
            then im.getD (max im.length info.length - 2) "" else blank46)
          ++ "   " ++ linkLine (pickLinks links).1 (pickLinks links).2) ::
        (im.drop (max im.length info.length - 1)).map (fun l => l ++ "   ")) := by
  simp only [displayRows]
  rw [if_neg hl]
  set M := max im.length info.length with hM
  by_cases hc : (M : Int) - 2 < (im.length : Int)
  · have hcn : M - 2 < im.length := by omega
    rw [if_pos hc, pyIdx_eq_get? (by omega) hc]
    have h1 : im.get? ((M : Int) - 2).toNat = some (im.getD (M - 2) "") := by
      have htn : ((M : Int) - 2).toNat = M - 2 := by omega
      rw [htn, List.get?_eq_getElem?, List.getD_eq_getElem?_getD,
        List.getElem?_eq_getElem hcn]
      rfl
    rw [h1]
    have h2 : pyIdxList im (intRange ((M : Int) - 2 + 1) (im.length : Int)) =
        some (im.drop (M - 1)) := by
      have hd := pyIdxList_intRange_drop im
        ((im.length : Int) - ((M : Int) - 2 + 1)).toNat ((M : Int) - 2 + 1) (by omega) rfl
      rw [hd]
      have htn : ((M : Int) - 2 + 1).toNat = M - 1 := by omega
      rw [htn]
    rw [h2, if_pos hcn]
  · have hcn : ¬ M - 2 < im.length := by omega
    rw [if_neg hc]
    have h2 : intRange ((M : Int) - 2 + 1) (im.length : Int) = [] :=
      intRange_eq_nil (by omega)
    have h3 : im.drop (M - 1) = [] := List.drop_eq_nil_of_le (by omega)
    rw [h2, if_neg hcn, h3]
    rfl

/-- C2: with 20 image lines, 8 info lines and 2 links (one catalog link
containing "spotify", one not), the compositor prints exactly 20 rows:
18 content rows of `imageLine + 3 spaces + infoLine` (blank info beyond
the 8 given), then 1 link row joining the catalog link and the
non-catalog link with 3 spaces beside image row 18, then 1 trailing
image-only row; and in general the content section has exactly
`max(len(imageLines), len(infoLines)) − 2` rows. -/
theorem display_side_by_side_composition_rows :
    (∀ (im info : List String) (a b : String),
      im.length = 20 → info.length = 8 →
      containsSpotify a = false → containsSpotify b = true → a ≠ "" →
      displayRows im info [a, b] =
        some ((List.range 18).map (fun i => im.getD i "" ++ "   " ++ info.getD i "") ++
          [im.getD 18 "" ++ "   " ++ (b ++ "   " ++ a)] ++ [im.getD 19 "" ++ "   "]) ∧
      ((displayRows im info [a, b]).getD []).length = 20) ∧
    (∀ im info : List String,
      (contentSection im info).length = max im.length info.length - 2) := by
  refine ⟨?_, contentSection_length⟩
  intro im info a b him hinf hca hcb hane
  have hbne : b ≠ "" := by
    intro he
    rw [he] at hcb
    exact absurd hcb (by decide)
  have hmax : max im.length info.length = 20 := by rw [him, hinf]; rfl
  have hpick : pickLinks [a, b] = (b, a) := by
    simp [pickLinks, hca, hcb, hbne, hane]
  have hlink : linkLine b a = b ++ "   " ++ a := by
    simp [linkLine, hbne, hane]
  have hcontent : contentSection im info =
      (List.range 18).map (fun i => im.getD i "" ++ "   " ++ info.getD i "") := by
    simp only [contentSection, him, hinf]
    rw [show max (20 : Nat) 8 - 2 = 18 from by decide]
    rw [show (18 : Nat) - 8 = 10 from by decide]
    apply List.map_congr_left
    intro i hi
    rw [List.mem_range] at hi
    have h20 : i < 20 := by omega
    rw [if_pos h20]
    have hlen : (info ++ List.replicate 10 "").length = 18 := by
      simp [List.length_append, List.length_replicate, hinf]
    rw [hlen, if_pos (show i < 18 by omega), getD_append_replicate_empty]
  have hdrop : im.drop 19 = [im.getD 19 ""] := by
    have h19 : (19 : Nat) < im.length := by omega
    rw [List.drop_eq_getElem_cons h19, List.drop_eq_nil_of_le (by omega)]
    have hg : im[19] = im.getD 19 "" := by
      rw [List.getD_eq_getElem?_getD, List.getElem?_eq_getElem h19]
      rfl
    rw [hg]
  have heq := displayRows_links_eq im info [a, b] (by simp) (by omega)
  rw [hmax, hpick, hcontent] at heq
  dsimp only at heq
  rw [hlink, show (20 : Nat) - 2 = 18 from by decide,
    show (20 : Nat) - 1 = 19 from by decide, him, if_pos (show (18 : Nat) < 20 by decide),
    hdrop] at heq
  simp only [List.map_cons, List.map_nil] at heq
  constructor
  · rw [heq, List.append_assoc]
    rfl
  · rw [heq]
    simp

/-- Witness for `display_side_by_side_composition_rows` at concrete
lists of the given lengths. -/
theorem display_side_by_side_composition_rows_witness :
    ((displayRows ((List.range 20).map toString)
        ((List.range 8).map (fun i => "n" ++ toString i))
        ["cover", "open spotify"]).getD []).length = 20 :=
  (display_side_by_side_composition_rows.1 ((List.range 20).map toString)
    ((List.range 8).map (fun i => "n" ++ toString i)) "cover" "open spotify"
    (by decide) (by decide) (by decide) (by decide) (by decide)).2

theorem displayRows_isSome_of_two_le (im info links : List String)
    (h : 2 ≤ max im.length info.length) : (displayRows im info links).isSome = true := by
  simp only [displayRows]
  set M := max im.length info.length with hM
  by_cases hl : links = []
  · rw [if_pos hl]
    obtain ⟨vs, hvs⟩ := pyIdxList_some_of_bounds im
      (intRange ((M : Int) - 2) (im.length : Int))
      (fun i hi => by have := mem_intRange hi; omega)
    rw [hvs]
    rfl
  · rw [if_neg hl]
    by_cases hc : (M : Int) - 2 < (im.length : Int)
    · rw [if_pos hc, pyIdx_eq_get? (by omega) hc]
      have hlt : ((M : Int) - 2).toNat < im.length := by omega
      rw [List.get?_eq_getElem?, List.getElem?_eq_getElem hlt]
      obtain ⟨vs, hvs⟩ := pyIdxList_some_of_bounds im
        (intRange ((M : Int) - 2 + 1) (im.length : Int))
        (fun i hi => by have := mem_intRange hi; omega)
      rw [hvs]
      rfl
    · rw [if_neg hc]
      obtain ⟨vs, hvs⟩ := pyIdxList_some_of_bounds im
        (intRange ((M : Int) - 2 + 1) (im.length : Int))
        (fun i hi => by have := mem_intRange hi; omega)
      rw [hvs]
      rfl

/-- C9 counterexample: with an empty image-line list and a single info
line (info longer than image), the compositor raises `IndexError`
(modelled as `none`) instead of silently dropping trailing info lines. -/
theorem display_side_by_side_info_overflow_counterexample :
    ([] : List String).length < ["extra"].length ∧
    displayRows [] ["extra"] ["link"] = none := by
  decide

/-- C9 amended: whenever `infoLines` is longer than `imageLines` and has
at least two lines (so that `target_lines` is non-negative and no
`IndexError` occurs), the output depends only on the first
`len(infoLines) − 2` info lines — replacing the final two info lines by
anything of the same length leaves every printed row unchanged, because
after the link row only remaining image rows are emitted. -/
theorem display_side_by_side_drops_trailing_info :
    ∀ (im info info2 links : List String),
      im.length < info.length → 2 ≤ info.length →
      info2.length = info.length →
      info.take (info.length - 2) = info2.take (info.length - 2) →
      displayRows im info links = displayRows im info2 links ∧
      (displayRows im info links).isSome = true := by
  intro im info info2 links hlt h2 hlen htake
  have hmax : max im.length info.length = info.length := Nat.max_eq_right (Nat.le_of_lt hlt)
  have hmax2 : max im.length info2.length = info.length := by rw [hlen]; exact hmax
  refine ⟨?_, displayRows_isSome_of_two_le im info links (by omega)⟩
  have hget : ∀ i, i < info.length - 2 → info.getD i "" = info2.getD i "" := by
    intro i hi
    have hA := @List.getElem?_take_of_lt String info (info.length - 2) i hi
    have hB := @List.getElem?_take_of_lt String info2 (info.length - 2) i hi
    rw [List.getD_eq_getElem?_getD, List.getD_eq_getElem?_getD, ← hA, ← hB, htake]
  have hcs : contentSection im info = contentSection im info2 := by
    simp only [contentSection, hmax, hmax2, hlen]
    have hrep : info.length - 2 - info.length = 0 := by omega
    simp only [hrep, List.replicate_zero, List.append_nil, hlen]
    apply List.map_congr_left
    intro i hi
    rw [List.mem_range] at hi
    have hi2 : i < info.length := by omega
    rw [if_pos hi2, if_pos hi2, hget i (by omega)]
  simp only [displayRows, hcs, hmax, hmax2]

/-- Witness for `display_side_by_side_drops_trailing_info` at concrete
lists: changing the last two of three info lines leaves the output
unchanged. -/
theorem display_side_by_side_drops_trailing_info_witness :
    displayRows ["i0"] ["a", "b", "c"] ["s"] = displayRows ["i0"] ["a", "b", "z"] ["s"] ∧
    (displayRows ["i0"] ["a", "b", "c"] ["s"]).isSome = true :=
  display_side_by_side_drops_trailing_info ["i0"] ["a", "b", "c"] ["a", "b", "z"] ["s"]
    (by decide) (by decide) (by decide) (by decide)

